import Mathlib

/-!
Verification of the subscription multiplexer and transaction-batch merge
algorithm of the in-page provider client.  The definitions below are a
shallow embedding of the program: transaction histories are lists, the
JavaScript string comparison used for logical times is an explicit
lexicographic comparison on character lists, and the mutable registries of
the client are explicit association-list state threaded through the
operations.
-/

/-- Lexicographic comparison of character lists, the order used by the
string comparison on logical-time values. -/
def ltbChars : List Char → List Char → Bool
  | [], [] => false
  | [], _ :: _ => true
  | _ :: _, [] => false
  | a :: as, b :: bs => if a < b then true else if b < a then false else ltbChars as bs

/-- Boolean strict order on strings via their character data; models the
comparison `a.localeCompare(b) < 0` on logical-time strings. -/
def strLtb (a b : String) : Bool := ltbChars a.data b.data

/-- Identity of a transaction; only the logical time field is read by the
merge algorithm. -/
structure TransactionId where
  lt : String
deriving Repr, DecidableEq

/-- A transaction record as seen by the merge algorithm. -/
structure Transaction where
  id : TransactionId
deriving Repr, DecidableEq

/-- Batch direction tag of a delivered transaction batch. -/
inductive BatchType where
  | old
  | new
deriving Repr, DecidableEq

/-- Metadata describing the position of a delivered batch. -/
structure TransactionsBatchInfo where
  minLt : String
  maxLt : String
  batchType : BatchType
deriving Repr, DecidableEq

/-- Index of the first entry of the list whose logical time is strictly
below the given bound; embeds the skip loop of the merge function, which
advances while the entry's time compares greater or equal to the bound. -/
def findInsertIndex (maxLt : String) : List Transaction → Nat
  | [] => 0
  | t :: rest => if strLtb t.id.lt maxLt then 0 else findInsertIndex maxLt rest + 1

/-- Embedding of the merge of a known transaction history with a newly
delivered batch.  An old batch is appended; with no known history the batch
becomes the history; otherwise the batch is spliced in at the first index
whose logical time is below the batch's maximal logical time. -/
def mergeTransactions (knownTransactions newTransactions : List Transaction)
    (info : TransactionsBatchInfo) : List Transaction :=
  if info.batchType = BatchType.old then
    knownTransactions ++ newTransactions
  else if knownTransactions.length = 0 then
    knownTransactions ++ newTransactions
  else
    let i := findInsertIndex info.maxLt knownTransactions
    knownTransactions.take i ++ newTransactions ++ knownTransactions.drop i

/-- Strictly-descending-by-logical-time check for a transaction list. -/
def sortedDescBool : List Transaction → Bool
  | [] => true
  | [_] => true
  | a :: b :: rest => strLtb b.id.lt a.id.lt && sortedDescBool (b :: rest)

theorem findInsertIndex_le (maxLt : String) (l : List Transaction) :
    findInsertIndex maxLt l ≤ l.length := by
  induction l with
  | nil => simp [findInsertIndex]
  | cons t rest ih =>
    simp only [findInsertIndex, List.length_cons]
    by_cases h : strLtb t.id.lt maxLt
    · simp [h]
    · simp [h]
      omega

theorem findInsertIndex_take (maxLt : String) (l : List Transaction) :
    ∀ t ∈ l.take (findInsertIndex maxLt l), strLtb t.id.lt maxLt = false := by
  induction l with
  | nil => simp
  | cons t rest ih =>
    intro u hu
    simp only [findInsertIndex] at hu
    by_cases h : strLtb t.id.lt maxLt
    · rw [if_pos h] at hu
      simp at hu
    · rw [if_neg h, List.take_succ_cons, List.mem_cons] at hu
      rcases hu with rfl | hu
      · exact Bool.eq_false_iff.mpr h
      · exact ih u hu

theorem findInsertIndex_head (maxLt : String) (l : List Transaction) :
    ∀ t ∈ (l.drop (findInsertIndex maxLt l)).head?, strLtb t.id.lt maxLt = true := by
  induction l with
  | nil => simp
  | cons t rest ih =>
    simp only [findInsertIndex]
    by_cases h : strLtb t.id.lt maxLt
    · simp [h]
    · simp only [h, if_false, List.drop_succ_cons]
      exact ih

/-- Claim C3: for strictly descending known history and incoming batch, a
batch tagged new with non-empty known history is inserted, in order, at the
first index of the known history whose logical time is strictly below the
batch's maximal logical time; all other known entries stay in place. -/
theorem merge_new_inserts_at_first_lower_index
    (known incoming : List Transaction) (info : TransactionsBatchInfo)
    (_hk : sortedDescBool known = true) (_hi : sortedDescBool incoming = true)
    (hbt : info.batchType = BatchType.new) (hne : known ≠ []) :
    findInsertIndex info.maxLt known ≤ known.length ∧
    (∀ t ∈ known.take (findInsertIndex info.maxLt known),
      strLtb t.id.lt info.maxLt = false) ∧
    (∀ t ∈ (known.drop (findInsertIndex info.maxLt known)).head?,
      strLtb t.id.lt info.maxLt = true) ∧
    mergeTransactions known incoming info =
      known.take (findInsertIndex info.maxLt known) ++ incoming ++
        known.drop (findInsertIndex info.maxLt known) := by
  refine ⟨findInsertIndex_le _ _, findInsertIndex_take _ _, findInsertIndex_head _ _, ?_⟩
  have hlen : known.length ≠ 0 := fun h => hne (List.length_eq_zero.mp h)
  simp only [mergeTransactions, hbt]
  simp [hlen]

/-- Claim C3 witness: the concrete example run of the merge. -/
theorem merge_new_inserts_at_first_lower_index_witness :
    sortedDescBool [⟨⟨"20"⟩⟩, ⟨⟨"15"⟩⟩, ⟨⟨"10"⟩⟩, ⟨⟨"01"⟩⟩] = true ∧
    sortedDescBool [⟨⟨"14"⟩⟩, ⟨⟨"12"⟩⟩] = true ∧
    mergeTransactions [⟨⟨"20"⟩⟩, ⟨⟨"15"⟩⟩, ⟨⟨"10"⟩⟩, ⟨⟨"01"⟩⟩]
      [⟨⟨"14"⟩⟩, ⟨⟨"12"⟩⟩] ⟨"12", "14", BatchType.new⟩ =
      [⟨⟨"20"⟩⟩, ⟨⟨"15"⟩⟩, ⟨⟨"14"⟩⟩, ⟨⟨"12"⟩⟩, ⟨⟨"10"⟩⟩, ⟨⟨"01"⟩⟩] := by
  refine ⟨by decide, by decide, ?_⟩
  have h := merge_new_inserts_at_first_lower_index
    [⟨⟨"20"⟩⟩, ⟨⟨"15"⟩⟩, ⟨⟨"10"⟩⟩, ⟨⟨"01"⟩⟩] [⟨⟨"14"⟩⟩, ⟨⟨"12"⟩⟩]
    ⟨"12", "14", BatchType.new⟩ (by decide) (by decide) rfl (by decide)
  exact h.2.2.2.trans (by decide)

/-- Claim C7: an old batch, or any batch arriving on an empty known
history, is appended after the known history with both orders kept; in
particular merging into an empty history returns the batch itself. -/
theorem merge_old_or_empty_appends
    (known incoming : List Transaction) (info : TransactionsBatchInfo)
    (h : info.batchType = BatchType.old ∨ known = []) :
    mergeTransactions known incoming info = known ++ incoming := by
  rcases h with h | h
  · simp [mergeTransactions, h]
  · subst h
    cases hb : info.batchType <;> simp [mergeTransactions, hb]

/-- Claim C7 witness: an old batch appended to a non-empty history, and a
batch of type new merged into an empty history. -/
theorem merge_old_or_empty_appends_witness :
    mergeTransactions [⟨⟨"20"⟩⟩] [⟨⟨"05"⟩⟩] ⟨"05", "05", BatchType.old⟩ =
      [⟨⟨"20"⟩⟩, ⟨⟨"05"⟩⟩] ∧
    mergeTransactions [] [⟨⟨"14"⟩⟩, ⟨⟨"12"⟩⟩] ⟨"12", "14", BatchType.new⟩ =
      [⟨⟨"14"⟩⟩, ⟨⟨"12"⟩⟩] := by
  constructor
  · exact (merge_old_or_empty_appends _ _ _ (Or.inl rfl)).trans (by decide)
  · exact (merge_old_or_empty_appends _ _ _ (Or.inr rfl)).trans (by decide)

/-- Claim C10: the merge result never depends on the minimal logical time
recorded in the batch metadata; two metadata values agreeing on batch type
and maximal logical time produce the same merged history. -/
theorem merge_independent_of_minLt
    (known incoming : List Transaction) (minLt1 minLt2 maxLt : String)
    (bt : BatchType) :
    mergeTransactions known incoming ⟨minLt1, maxLt, bt⟩ =
      mergeTransactions known incoming ⟨minLt2, maxLt, bt⟩ := by
  cases bt <;> rfl

/-- Interest flags of one consumer for one address: interest in contract
state changes and in newly found transactions. -/
structure ContractUpdatesSubscription where
  state : Bool
  transactions : Bool
deriving Repr, DecidableEq

/-- Componentwise boolean OR of two interest-flag values. -/
def orFlags (a b : ContractUpdatesSubscription) : ContractUpdatesSubscription :=
  ⟨a.state || b.state, a.transactions || b.transactions⟩

/-- Componentwise OR over a bucket of registered entries, each entry a
subscription id paired with its interest flags. -/
def totalOr : List (Nat × ContractUpdatesSubscription) → ContractUpdatesSubscription
  | [] => ⟨false, false⟩
  | it :: rest => orFlags it.2 (totalOr rest)

/-- Entries of a bucket other than the one designated by the given id; the
id plays the role of the object identity of the excluded entry. -/
def withoutEntry (l : List (Nat × ContractUpdatesSubscription)) (except : Nat) :
    List (Nat × ContractUpdatesSubscription) :=
  l.filter (fun it => it.1 != except)

/-- Loop of the interest aggregation: scans the entries accumulating both
aggregates, breaking out as soon as the aggregate without the excluded
entry has both components set. -/
def foldSubscriptionsGo (except : Nat)
    (total withoutExcluded : ContractUpdatesSubscription) :
    List (Nat × ContractUpdatesSubscription) →
      ContractUpdatesSubscription × ContractUpdatesSubscription
  | [] => (total, withoutExcluded)
  | item :: rest =>
    if withoutExcluded.transactions && withoutExcluded.state then
      (total, withoutExcluded)
    else
      foldSubscriptionsGo except
        ⟨total.state || item.2.state, total.transactions || item.2.transactions⟩
        (if item.1 != except then
          ⟨withoutExcluded.state || item.2.state,
            withoutExcluded.transactions || item.2.transactions⟩
        else withoutExcluded)
        rest

/-- Embedding of the interest aggregation over a bucket: returns the OR of
all entries and the OR of all entries except the designated one. -/
def foldSubscriptions (subscriptions : List (Nat × ContractUpdatesSubscription))
    (except : Nat) : ContractUpdatesSubscription × ContractUpdatesSubscription :=
  foldSubscriptionsGo except ⟨false, false⟩ ⟨false, false⟩ subscriptions

theorem orFlags_false_left (a : ContractUpdatesSubscription) :
    orFlags ⟨false, false⟩ a = a := by
  cases a
  simp [orFlags]

theorem orFlags_false_right (a : ContractUpdatesSubscription) :
    orFlags a ⟨false, false⟩ = a := by
  cases a
  simp [orFlags]

theorem orFlags_assoc (a b c : ContractUpdatesSubscription) :
    orFlags (orFlags a b) c = orFlags a (orFlags b c) := by
  simp [orFlags, Bool.or_assoc]

theorem boolOrLeftComm : ∀ a b c : Bool, (a || (b || c)) = (b || (a || c)) := by
  decide

theorem orFlags_left_comm (a b c : ContractUpdatesSubscription) :
    orFlags a (orFlags b c) = orFlags b (orFlags a c) := by
  cases a
  cases b
  cases c
  simp only [orFlags, ContractUpdatesSubscription.mk.injEq]
  exact ⟨boolOrLeftComm _ _ _, boolOrLeftComm _ _ _⟩

theorem foldSubscriptionsGo_eq (except : Nat) :
    ∀ (items : List (Nat × ContractUpdatesSubscription))
      (total we : ContractUpdatesSubscription),
      (we.state = true → total.state = true) →
      (we.transactions = true → total.transactions = true) →
      foldSubscriptionsGo except total we items =
        (orFlags total (totalOr items),
          orFlags we (totalOr (withoutEntry items except))) := by
  intro items
  induction items with
  | nil =>
    intro total we _ _
    simp [foldSubscriptionsGo, totalOr, withoutEntry, orFlags_false_right]
  | cons item rest ih =>
    intro total we h1 h2
    by_cases hbreak : we.transactions && we.state
    · have hwt : we.transactions = true := (Bool.and_eq_true _ _).mp hbreak |>.1
      have hws : we.state = true := (Bool.and_eq_true _ _).mp hbreak |>.2
      have htt : total = ⟨true, true⟩ := by
        cases total
        simp_all
      have hwe : we = ⟨true, true⟩ := by
        cases we
        simp_all
      rw [foldSubscriptionsGo, if_pos hbreak, htt, hwe]
      have hT : orFlags ⟨true, true⟩ (totalOr (item :: rest)) = ⟨true, true⟩ := by
        simp [orFlags]
      have hW : orFlags (⟨true, true⟩ : ContractUpdatesSubscription)
          (totalOr (withoutEntry (item :: rest) except)) = ⟨true, true⟩ := by
        simp [orFlags]
      rw [hT, hW]
    · rw [foldSubscriptionsGo, if_neg hbreak]
      by_cases hid : item.1 != except
      · rw [if_pos hid]
        have step := ih ⟨total.state || item.2.state, total.transactions || item.2.transactions⟩
          ⟨we.state || item.2.state, we.transactions || item.2.transactions⟩
          (by
            intro h
            rcases Bool.or_eq_true _ _ |>.mp h with h | h
            · exact Bool.or_eq_true _ _ |>.mpr (Or.inl (h1 h))
            · exact Bool.or_eq_true _ _ |>.mpr (Or.inr h))
          (by
            intro h
            rcases Bool.or_eq_true _ _ |>.mp h with h | h
            · exact Bool.or_eq_true _ _ |>.mpr (Or.inl (h2 h))
            · exact Bool.or_eq_true _ _ |>.mpr (Or.inr h))
        rw [step]
        have hwl : withoutEntry (item :: rest) except = item :: withoutEntry rest except := by
          simp [withoutEntry, List.filter_cons, hid]
        rw [hwl]
        have e1 : (⟨total.state || item.2.state, total.transactions || item.2.transactions⟩ :
            ContractUpdatesSubscription) = orFlags total item.2 := rfl
        have e2 : (⟨we.state || item.2.state, we.transactions || item.2.transactions⟩ :
            ContractUpdatesSubscription) = orFlags we item.2 := rfl
        simp only [totalOr]
        rw [e1, e2, ← orFlags_assoc, ← orFlags_assoc]
      · rw [if_neg hid]
        have step := ih ⟨total.state || item.2.state, total.transactions || item.2.transactions⟩
          we
          (fun h => Bool.or_eq_true _ _ |>.mpr (Or.inl (h1 h)))
          (fun h => Bool.or_eq_true _ _ |>.mpr (Or.inl (h2 h)))
        rw [step]
        have hwl : withoutEntry (item :: rest) except = withoutEntry rest except := by
          simp only [withoutEntry, List.filter_cons]
          rw [if_neg hid]
        rw [hwl]
        have e1 : (⟨total.state || item.2.state, total.transactions || item.2.transactions⟩ :
            ContractUpdatesSubscription) = orFlags total item.2 := rfl
        simp only [totalOr]
        rw [e1, ← orFlags_assoc]

theorem foldSubscriptions_eq (items : List (Nat × ContractUpdatesSubscription))
    (except : Nat) :
    foldSubscriptions items except =
      (totalOr items, totalOr (withoutEntry items except)) := by
  rw [foldSubscriptions, foldSubscriptionsGo_eq except items ⟨false, false⟩ ⟨false, false⟩
    (fun h => by simp at h) (fun h => by simp at h),
    orFlags_false_left, orFlags_false_left]

/-- Claim C2: the interest aggregation returns the OR of all entries as
total, the OR of all entries other than the identity-designated excluded
entry as withoutExcluded, and its early exit never changes either returned
value, since the result always equals the plain ORs. -/
theorem foldSubscriptions_returns_both_ors
    (entries : List (Nat × ContractUpdatesSubscription)) (except : Nat) :
    foldSubscriptions entries except =
      (totalOr entries, totalOr (withoutEntry entries except)) :=
  foldSubscriptions_eq entries except

/-- Lookup in a string-keyed association list, modelling property access on
a string-keyed object. -/
def lookupStr {α : Type} : List (String × α) → String → Option α
  | [], _ => none
  | (k, v) :: rest, key => if key = k then some v else lookupStr rest key

/-- Update of a string-keyed association list, modelling property
assignment on a string-keyed object: replaces in place or appends. -/
def setStr {α : Type} : List (String × α) → String → α → List (String × α)
  | [], key, v => [(key, v)]
  | (k, w) :: rest, key, v =>
    if key = k then (key, v) :: rest else (k, w) :: setStr rest key v

/-- Whether a numeric-keyed callback bucket holds the given id. -/
def hasId (l : List Nat) (id : Nat) : Bool := l.any (fun x => x == id)

/-- Insertion of an id into a numeric-keyed bucket; integer object keys
enumerate in ascending order, so insertion keeps the bucket sorted. -/
def insertId : List Nat → Nat → List Nat
  | [], id => [id]
  | x :: rest, id =>
    if id = x then x :: rest
    else if id < x then id :: x :: rest
    else x :: insertId rest id

/-- Deletion of an id from a numeric-keyed bucket. -/
def removeId (l : List Nat) (id : Nat) : List Nat := l.filter (fun x => x != id)

/-- Whether an interest bucket holds an entry under the given id. -/
def hasKey (l : List (Nat × ContractUpdatesSubscription)) (id : Nat) : Bool :=
  l.any (fun it => it.1 == id)

/-- Assignment of interest flags under an id; integer object keys enumerate
in ascending order, so insertion keeps the bucket sorted by id. -/
def setKey : List (Nat × ContractUpdatesSubscription) → Nat →
    ContractUpdatesSubscription → List (Nat × ContractUpdatesSubscription)
  | [], id, v => [(id, v)]
  | it :: rest, id, v =>
    if id = it.1 then (id, v) :: rest
    else if id < it.1 then (id, v) :: it :: rest
    else it :: setKey rest id v

/-- Mutable state of the provider client: the topic registry mapping each
topic name to the ids holding a delivery callback, and the address interest
registry mapping each address to its bucket of per-id interest flags. -/
structure ClientState where
  subscriptions : List (String × List Nat)
  contractSubscriptions : List (String × List (Nat × ContractUpdatesSubscription))
deriving Repr, DecidableEq

/-- Fresh client state: both registries empty. -/
def ClientState.init : ClientState := ⟨[], []⟩

/-- An upstream call issued to the transport. -/
inductive UpstreamCall where
  | subscribeCall (address : String) (subscriptions : ContractUpdatesSubscription)
  | unsubscribeCall (address : String)
deriving Repr, DecidableEq

/-- Failure surfaced to the caller of the subscribe method. -/
inductive SubError where
  | unknownEvent (name : String)
  | upstreamFailure
deriving Repr, DecidableEq

/-- Interest flags attached to a freshly inserted entry, determined by the
event name the consumer subscribed to. -/
def flagsFor (eventName : String) : ContractUpdatesSubscription :=
  ⟨decide (eventName = "contractStateChanged"), decide (eventName = "transactionsFound")⟩

/-- Topic names handled by the simple, non-address-scoped branch. -/
def isSimpleEvent (e : String) : Bool :=
  e == "disconnected" || e == "networkChanged" || e == "permissionsChanged" || e == "loggedOut"

/-- Topic names handled by the address-scoped branch. -/
def isContractEvent (e : String) : Bool :=
  e == "transactionsFound" || e == "contractStateChanged"

/-- Callback bucket of a topic, empty when the topic is unregistered. -/
def topicIdsOf (s : ClientState) (eventName : String) : List Nat :=
  (lookupStr s.subscriptions eventName).getD []

/-- Interest bucket of an address, empty when the address is unregistered. -/
def bucketOf (s : ClientState) (address : String) :
    List (Nat × ContractUpdatesSubscription) :=
  (lookupStr s.contractSubscriptions address).getD []

/-- Materialisation of a topic's callback bucket performed on every call of
the subscribe method, before the topic name is dispatched on. -/
def ensureTopic (eventName : String) (s : ClientState) : ClientState :=
  match lookupStr s.subscriptions eventName with
  | some _ => s
  | none => { s with subscriptions := setStr s.subscriptions eventName [] }

/-- Subscribe action of the simple branch: installs the delivery callback
unless the id is already present. -/
def simpleSubscribeAction (eventName : String) (id : Nat) (s : ClientState) : ClientState :=
  if hasId (topicIdsOf s eventName) id then s
  else { s with subscriptions := setStr s.subscriptions eventName (insertId (topicIdsOf s eventName) id) }

/-- Subscribe action of the address-scoped branch.  Installs the callback
and the interest entry, aggregates interest excluding the new entry, issues
an upstream subscribe when the aggregate grew, and on upstream failure
deletes the two insertions again and re-raises.  The upstreamOk flag plays
the role of the transport accepting or rejecting the call. -/
def contractSubscribeAction (eventName address : String) (id : Nat) (upstreamOk : Bool)
    (s : ClientState) : ClientState × List UpstreamCall × Option SubError :=
  if hasId (topicIdsOf s eventName) id then (s, [], none)
  else
    let tids := insertId (topicIdsOf s eventName) id
    let s1 : ClientState := { s with subscriptions := setStr s.subscriptions eventName tids }
    let bucket1 := setKey (bucketOf s1 address) id (flagsFor eventName)
    let s2 : ClientState :=
      { s1 with contractSubscriptions := setStr s1.contractSubscriptions address bucket1 }
    let folded := foldSubscriptions bucket1 id
    if folded.1.transactions != folded.2.transactions || folded.1.state != folded.2.state then
      if upstreamOk then (s2, [UpstreamCall.subscribeCall address folded.1], none)
      else
        let s3 : ClientState :=
          { s2 with
              subscriptions := setStr s2.subscriptions eventName (removeId tids id),
              contractSubscriptions :=
                setStr s2.contractSubscriptions address (withoutEntry bucket1 id) }
        (s3, [UpstreamCall.subscribeCall address folded.1], some SubError.upstreamFailure)
    else (s2, [], none)

/-- Unsubscribe action of the address-scoped branch: deletes the callback,
and if the address bucket exists, aggregates interest with the removed
entry excluded, deletes the entry and issues the narrowing upstream call or
the full unsubscribe as required. -/
def contractUnsubscribeAction (eventName address : String) (id : Nat) (s : ClientState) :
    ClientState × List UpstreamCall :=
  let s1 : ClientState :=
    { s with subscriptions := setStr s.subscriptions eventName (removeId (topicIdsOf s eventName) id) }
  match lookupStr s1.contractSubscriptions address with
  | none => (s1, [])
  | some bucket =>
    let folded := foldSubscriptions bucket id
    let s2 : ClientState :=
      { s1 with contractSubscriptions := setStr s1.contractSubscriptions address (withoutEntry bucket id) }
    if !folded.2.transactions && !folded.2.state then
      (s2, [UpstreamCall.unsubscribeCall address])
    else if folded.1.transactions != folded.2.transactions || folded.1.state != folded.2.state then
      (s2, [UpstreamCall.subscribeCall address folded.2])
    else (s2, [])

/-- The public subscribe method: materialises the topic bucket, then
dispatches on the topic name, throwing on a name outside the fixed set. -/
def subscribeMethod (eventName address : String) (id : Nat) (upstreamOk : Bool)
    (s : ClientState) : ClientState × List UpstreamCall × Option SubError :=
  let s1 := ensureTopic eventName s
  if isSimpleEvent eventName then (simpleSubscribeAction eventName id s1, [], none)
  else if isContractEvent eventName then contractSubscribeAction eventName address id upstreamOk s1
  else (s1, [], some (SubError.unknownEvent eventName))

theorem lookupStr_setStr_self {α : Type} (l : List (String × α)) (k : String) (v : α) :
    lookupStr (setStr l k v) k = some v := by
  induction l with
  | nil => simp [setStr, lookupStr]
  | cons p rest ih =>
    obtain ⟨k', w⟩ := p
    by_cases h : k = k'
    · simp [setStr, lookupStr, h]
    · simp only [setStr, if_neg h, lookupStr]
      exact ih

theorem setStr_self {α : Type} (l : List (String × α)) (k : String) (v : α)
    (h : lookupStr l k = some v) : setStr l k v = l := by
  induction l with
  | nil => simp [lookupStr] at h
  | cons p rest ih =>
    obtain ⟨k', w⟩ := p
    by_cases hk : k = k'
    · subst hk
      rw [lookupStr, if_pos rfl] at h
      injection h with h
      simp only [setStr]
      rw [if_pos trivial, h]
    · simp only [lookupStr, if_neg hk] at h
      simp [setStr, if_neg hk, ih h]

theorem setStr_setStr {α : Type} (l : List (String × α)) (k : String) (v w : α) :
    setStr (setStr l k v) k w = setStr l k w := by
  induction l with
  | nil => simp [setStr]
  | cons p rest ih =>
    obtain ⟨k', u⟩ := p
    by_cases h : k = k'
    · simp [setStr, h]
    · simp [setStr, if_neg h, ih]

theorem removeId_not_has (l : List Nat) (id : Nat) (h : hasId l id = false) :
    removeId l id = l := by
  induction l with
  | nil => rfl
  | cons x rest ih =>
    simp only [hasId, List.any_cons, Bool.or_eq_false_iff] at h
    simp only [removeId, List.filter_cons]
    have hx : (x != id) = true := by
      simp only [bne_iff_ne, ne_eq]
      intro he
      rw [he] at h
      simp at h
    rw [if_pos hx]
    have := ih (by simp [hasId, h.2])
    simp only [removeId] at this
    rw [this]

theorem removeId_insertId (l : List Nat) (id : Nat) (h : hasId l id = false) :
    removeId (insertId l id) id = l := by
  induction l with
  | nil => simp [insertId, removeId]
  | cons x rest ih =>
    simp only [hasId, List.any_cons, Bool.or_eq_false_iff] at h
    have hne : ¬ id = x := by
      intro he
      rw [he] at h
      simp at h
    have hxne : (x != id) = true := by
      simp only [bne_iff_ne, ne_eq]
      exact fun he => hne he.symm
    simp only [insertId, if_neg hne]
    by_cases hlt : id < x
    · rw [if_pos hlt]
      have hr : removeId rest id = rest := removeId_not_has rest id (by simp [hasId, h.2])
      simp only [removeId] at hr
      simp [removeId, hxne, hr]
    · rw [if_neg hlt]
      simp only [removeId, List.filter_cons]
      rw [if_pos hxne]
      have := ih (by simp [hasId, h.2])
      simp only [removeId] at this
      rw [this]

theorem withoutEntry_not_hasKey (l : List (Nat × ContractUpdatesSubscription)) (id : Nat)
    (h : hasKey l id = false) : withoutEntry l id = l := by
  induction l with
  | nil => rfl
  | cons p rest ih =>
    simp only [hasKey, List.any_cons, Bool.or_eq_false_iff] at h
    simp only [withoutEntry, List.filter_cons]
    have hp : (p.1 != id) = true := by
      simp only [bne_iff_ne, ne_eq]
      intro he
      rw [he] at h
      simp at h
    rw [if_pos hp]
    have := ih (by simp [hasKey, h.2])
    simp only [withoutEntry] at this
    rw [this]

theorem withoutEntry_setKey (l : List (Nat × ContractUpdatesSubscription)) (id : Nat)
    (f : ContractUpdatesSubscription) (h : hasKey l id = false) :
    withoutEntry (setKey l id f) id = l := by
  induction l with
  | nil => simp [setKey, withoutEntry]
  | cons p rest ih =>
    simp only [hasKey, List.any_cons, Bool.or_eq_false_iff] at h
    have hne : ¬ id = p.1 := by
      intro he
      rw [← he] at h
      simp at h
    have hpne : (p.1 != id) = true := by
      simp only [bne_iff_ne, ne_eq]
      exact fun he => hne he.symm
    simp only [setKey, if_neg hne]
    by_cases hlt : id < p.1
    · rw [if_pos hlt]
      have hr := withoutEntry_not_hasKey rest id (by simp [hasKey, h.2])
      simp only [withoutEntry] at hr
      simp [withoutEntry, hpne, hr]
    · rw [if_neg hlt]
      simp only [withoutEntry, List.filter_cons]
      rw [if_pos hpne]
      have := ih (by simp [hasKey, h.2])
      simp only [withoutEntry] at this
      rw [this]

theorem totalOr_setKey (l : List (Nat × ContractUpdatesSubscription)) (id : Nat)
    (f : ContractUpdatesSubscription) (h : hasKey l id = false) :
    totalOr (setKey l id f) = orFlags f (totalOr l) := by
  induction l with
  | nil =>
    simp [setKey, totalOr, orFlags_false_right]
  | cons p rest ih =>
    simp only [hasKey, List.any_cons, Bool.or_eq_false_iff] at h
    have hne : ¬ id = p.1 := by
      intro he
      rw [← he] at h
      simp at h
    simp only [setKey, if_neg hne]
    by_cases hlt : id < p.1
    · rw [if_pos hlt]
      simp [totalOr]
    · rw [if_neg hlt]
      simp only [totalOr]
      rw [ih (by simp [hasKey, h.2]), orFlags_left_comm]

theorem flag_ne_iff (a b : ContractUpdatesSubscription) :
    ((a.transactions != b.transactions || a.state != b.state) = true) ↔ a ≠ b := by
  cases a
  cases b
  simp only [bne_iff_ne, ne_eq, Bool.or_eq_true, ContractUpdatesSubscription.mk.injEq]
  tauto

theorem flag_bot_iff (b : ContractUpdatesSubscription) :
    ((!b.transactions && !b.state) = true) ↔ b = ⟨false, false⟩ := by
  cases b
  simp only [Bool.and_eq_true, Bool.not_eq_true', ContractUpdatesSubscription.mk.injEq]
  tauto

/-- Claim C9: calling subscribe again on a handle whose id already holds a
callback is a no-op on both registries and issues no upstream call, in the
address-scoped branch as well as the simple branch. -/
theorem resubscribe_same_id_is_noop (eventName address : String) (id : Nat) (ok : Bool)
    (s : ClientState) (h : hasId (topicIdsOf s eventName) id = true) :
    contractSubscribeAction eventName address id ok s = (s, [], none) ∧
    simpleSubscribeAction eventName id s = s := by
  constructor
  · rw [contractSubscribeAction, if_pos h]
  · rw [simpleSubscribeAction, if_pos h]

/-- Claim C9 witness: a concrete active handle re-subscribed. -/
theorem resubscribe_same_id_is_noop_witness :
    hasId (topicIdsOf ⟨[("transactionsFound", [1])], [("a", [(1, ⟨false, true⟩)])]⟩
      "transactionsFound") 1 = true ∧
    contractSubscribeAction "transactionsFound" "a" 1 true
      ⟨[("transactionsFound", [1])], [("a", [(1, ⟨false, true⟩)])]⟩ =
      (⟨[("transactionsFound", [1])], [("a", [(1, ⟨false, true⟩)])]⟩, [], none) :=
  ⟨by decide,
    (resubscribe_same_id_is_noop "transactionsFound" "a" 1 true
      ⟨[("transactionsFound", [1])], [("a", [(1, ⟨false, true⟩)])]⟩ (by decide)).1⟩

/-- Claim C4 (amended): removing the id of the last remaining entry of an
address issues exactly one upstream unsubscribe call and never a subscribe
call; afterwards the address's bucket stays registered as an empty bucket
rather than being dropped. -/
theorem remove_last_subscriber_unsubscribes (eventName address : String) (id : Nat)
    (f : ContractUpdatesSubscription) (s : ClientState)
    (h : lookupStr s.contractSubscriptions address = some [(id, f)]) :
    (contractUnsubscribeAction eventName address id s).2 =
      [UpstreamCall.unsubscribeCall address] ∧
    lookupStr (contractUnsubscribeAction eventName address id s).1.contractSubscriptions
      address = some [] := by
  have hbucket : withoutEntry [(id, f)] id = [] := by
    simp [withoutEntry]
  have hfold := foldSubscriptions_eq [(id, f)] id
  rw [hbucket] at hfold
  simp only [contractUnsubscribeAction, h, hfold, hbucket]
  simp [totalOr, lookupStr_setStr_self]

/-- Claim C4 witness: a concrete single-subscriber removal. -/
theorem remove_last_subscriber_unsubscribes_witness :
    lookupStr (ClientState.contractSubscriptions
        ⟨[("transactionsFound", [1])], [("a", [(1, ⟨false, true⟩)])]⟩) "a" =
      some [(1, ⟨false, true⟩)] ∧
    (contractUnsubscribeAction "transactionsFound" "a" 1
        ⟨[("transactionsFound", [1])], [("a", [(1, ⟨false, true⟩)])]⟩).2 =
      [UpstreamCall.unsubscribeCall "a"] :=
  ⟨by decide,
    (remove_last_subscriber_unsubscribes "transactionsFound" "a" 1 ⟨false, true⟩
      ⟨[("transactionsFound", [1])], [("a", [(1, ⟨false, true⟩)])]⟩ (by decide)).1⟩

/-- Claim C4 counterexample to the original wording: after removing the
last subscriber the address's bucket is not dropped from the address
interest registry; it remains registered, mapped to the empty bucket. -/
theorem remove_last_subscriber_bucket_not_dropped :
    lookupStr (contractUnsubscribeAction "transactionsFound" "a" 1
        ⟨[("transactionsFound", [1])], [("a", [(1, ⟨false, true⟩)])]⟩).1.contractSubscriptions
      "a" ≠ none := by
  decide

/-- Claim C5 (amended): a topic name outside the fixed enumerated set makes
the subscribe method fail immediately with the unknown-event error; the
address interest registry is untouched and the topic registry is unchanged
except that an empty callback bucket for the unknown name is materialised
when absent. -/
theorem unknown_topic_fails_without_interest_mutation (eventName address : String)
    (id : Nat) (ok : Bool) (s : ClientState)
    (h1 : isSimpleEvent eventName = false) (h2 : isContractEvent eventName = false) :
    subscribeMethod eventName address id ok s =
      (ensureTopic eventName s, [], some (SubError.unknownEvent eventName)) ∧
    (ensureTopic eventName s).contractSubscriptions = s.contractSubscriptions ∧
    (∀ ids, lookupStr s.subscriptions eventName = some ids → ensureTopic eventName s = s) := by
  refine ⟨?_, ?_, ?_⟩
  · simp only [subscribeMethod, h1, h2]
    simp
  · rw [ensureTopic]
    cases lookupStr s.subscriptions eventName <;> rfl
  · intro ids hids
    rw [ensureTopic, hids]

/-- Claim C5 witness: an unknown topic on a client already holding a bucket
for that name leaves the whole state unchanged and reports the error. -/
theorem unknown_topic_fails_without_interest_mutation_witness :
    isSimpleEvent "bogus" = false ∧ isContractEvent "bogus" = false ∧
    subscribeMethod "bogus" "a" 1 true ⟨[("bogus", [])], []⟩ =
      (ensureTopic "bogus" ⟨[("bogus", [])], []⟩, [], some (SubError.unknownEvent "bogus")) :=
  ⟨by decide, by decide,
    (unknown_topic_fails_without_interest_mutation "bogus" "a" 1 true
      ⟨[("bogus", [])], []⟩ (by decide) (by decide)).1⟩

/-- Claim C5 counterexample to the original wording: on a fresh client an
unknown topic name does mutate the topic registry, materialising an empty
bucket under the unknown name before the error is thrown. -/
theorem unknown_topic_still_materialises_topic_bucket :
    (subscribeMethod "bogus" "a" 1 true ClientState.init).1.subscriptions ≠
      ClientState.init.subscriptions ∧
    (subscribeMethod "bogus" "a" 1 true ClientState.init).2.2 =
      some (SubError.unknownEvent "bogus") := by
  decide

/-- Claim C6 (amended): when the upstream subscribe issued during an add of
interest fails, the just-inserted interest entry and the topic callback for
the id are deleted again before the failure is re-raised, so every bucket
holds its pre-call entries; buckets freshly materialised by the call itself
remain present as empty buckets. -/
theorem failed_add_rolls_back (eventName address : String) (id : Nat) (s : ClientState)
    (h1 : hasId (topicIdsOf s eventName) id = false)
    (h2 : hasKey (bucketOf s address) id = false)
    (h3 : orFlags (flagsFor eventName) (totalOr (bucketOf s address)) ≠
      totalOr (bucketOf s address)) :
    contractSubscribeAction eventName address id false s =
      ({ subscriptions := setStr s.subscriptions eventName (topicIdsOf s eventName),
         contractSubscriptions := setStr s.contractSubscriptions address (bucketOf s address) },
       [UpstreamCall.subscribeCall address
          (orFlags (flagsFor eventName) (totalOr (bucketOf s address)))],
       some SubError.upstreamFailure) := by
  rw [contractSubscribeAction, if_neg (by rw [h1]; exact Bool.false_ne_true)]
  have hb1 : bucketOf
      ({ s with subscriptions :=
                  setStr s.subscriptions eventName (insertId (topicIdsOf s eventName) id) } :
        ClientState) address =
      bucketOf s address := rfl
  simp only [hb1]
  have hfold := foldSubscriptions_eq (setKey (bucketOf s address) id (flagsFor eventName)) id
  rw [totalOr_setKey _ _ _ h2, withoutEntry_setKey _ _ _ h2] at hfold
  rw [hfold]
  have hcond : ((orFlags (flagsFor eventName) (totalOr (bucketOf s address)),
      totalOr (bucketOf s address)).1.transactions !=
        (orFlags (flagsFor eventName) (totalOr (bucketOf s address)),
      totalOr (bucketOf s address)).2.transactions ||
      (orFlags (flagsFor eventName) (totalOr (bucketOf s address)),
      totalOr (bucketOf s address)).1.state !=
        (orFlags (flagsFor eventName) (totalOr (bucketOf s address)),
      totalOr (bucketOf s address)).2.state) = true := (flag_ne_iff _ _).mpr h3
  rw [if_pos hcond, if_neg Bool.false_ne_true]
  have hsub : setStr (setStr s.subscriptions eventName (insertId (topicIdsOf s eventName) id))
      eventName (removeId (insertId (topicIdsOf s eventName) id) id) =
      setStr s.subscriptions eventName (topicIdsOf s eventName) := by
    rw [setStr_setStr, removeId_insertId _ _ h1]
  have hcs : setStr (setStr s.contractSubscriptions address
      (setKey (bucketOf s address) id (flagsFor eventName))) address
      (withoutEntry (setKey (bucketOf s address) id (flagsFor eventName)) id) =
      setStr s.contractSubscriptions address (bucketOf s address) := by
    rw [setStr_setStr, withoutEntry_setKey _ _ _ h2]
  simp only [hsub, hcs]

/-- Claim C6 witness: a failed add on an address already holding another
subscriber returns the registries to exactly their pre-call contents. -/
theorem failed_add_rolls_back_witness :
    hasId (topicIdsOf ⟨[("contractStateChanged", [1])], [("a", [(1, ⟨true, false⟩)])]⟩
      "transactionsFound") 2 = false ∧
    hasKey (bucketOf ⟨[("contractStateChanged", [1])], [("a", [(1, ⟨true, false⟩)])]⟩ "a")
      2 = false ∧
    contractSubscribeAction "transactionsFound" "a" 2 false
      ⟨[("contractStateChanged", [1])], [("a", [(1, ⟨true, false⟩)])]⟩ =
      (⟨[("contractStateChanged", [1]), ("transactionsFound", [])],
          [("a", [(1, ⟨true, false⟩)])]⟩,
        [UpstreamCall.subscribeCall "a" ⟨true, true⟩], some SubError.upstreamFailure) := by
  refine ⟨by decide, by decide, ?_⟩
  have h := failed_add_rolls_back "transactionsFound" "a" 2
    ⟨[("contractStateChanged", [1])], [("a", [(1, ⟨true, false⟩)])]⟩
    (by decide) (by decide) (by decide)
  exact h.trans (by decide)

/-- Claim C6 counterexample to the original wording: a failed add on a
fresh client leaves the address interest registry holding a newly created
empty bucket for the address, not its pre-call contents. -/
theorem failed_add_leaves_empty_bucket :
    (contractSubscribeAction "transactionsFound" "a" 1 false ClientState.init).2.2 =
      some SubError.upstreamFailure ∧
    (contractSubscribeAction "transactionsFound" "a" 1 false
        ClientState.init).1.contractSubscriptions ≠
      ClientState.init.contractSubscriptions := by
  decide

/-- Lifecycle event names of a subscription handle. -/
inductive SubscriptionEvent where
  | dataEv
  | subscribedEv
  | unsubscribedEv
deriving Repr, DecidableEq

/-- Listener table of a subscription handle, one list per lifecycle event;
listeners are identified by opaque tokens and invoked in registration
order. -/
structure SubListeners where
  dataL : List Nat
  subscribedL : List Nat
  unsubscribedL : List Nat
deriving Repr, DecidableEq

/-- Listener registration: pushes the listener onto the list of its event;
registration is additive only. -/
def SubListeners.on (ls : SubListeners) (e : SubscriptionEvent) (l : Nat) : SubListeners :=
  match e with
  | SubscriptionEvent.dataEv => { ls with dataL := ls.dataL ++ [l] }
  | SubscriptionEvent.subscribedEv => { ls with subscribedL := ls.subscribedL ++ [l] }
  | SubscriptionEvent.unsubscribedEv => { ls with unsubscribedL := ls.unsubscribedL ++ [l] }

/-- Event dispatch to a handle: every data listener is invoked, in
registration order; returns the invoked listeners. -/
def SubListeners.notify (ls : SubListeners) : List Nat := ls.dataL

/-- The handle's subscribe method: runs the address-scoped subscribe
action, then, on success only, fires the subscribed listeners.  Returns the
listener table, the client state, the issued upstream calls, the error if
any, and the fired listeners. -/
def handleSubscribe (eventName address : String) (id : Nat) (upstreamOk : Bool)
    (ls : SubListeners) (s : ClientState) :
    SubListeners × ClientState × List UpstreamCall × Option SubError × List Nat :=
  let r := contractSubscribeAction eventName address id upstreamOk s
  (ls, r.1, r.2.1, r.2.2, if r.2.2 = none then ls.subscribedL else [])

/-- The handle's unsubscribe method: runs the address-scoped unsubscribe
action, then fires the unsubscribed listeners. -/
def handleUnsubscribe (eventName address : String) (id : Nat)
    (ls : SubListeners) (s : ClientState) :
    SubListeners × ClientState × List UpstreamCall × List Nat :=
  let r := contractUnsubscribeAction eventName address id s
  (ls, r.1, r.2, ls.unsubscribedL)

/-- Claim C8: the registered data listeners of a handle are unchanged by
unsubscribe and subscribe; a data listener registered before an unsubscribe
followed by a fresh subscribe on the same handle is still among the
listeners invoked by every event dispatched to the handle afterwards. -/
theorem data_listeners_persist (ls : SubListeners) (l : Nat)
    (eventName address : String) (id : Nat) (ok : Bool) (s : ClientState) :
    (handleSubscribe eventName address id ok
        (handleUnsubscribe eventName address id
          (SubListeners.on ls SubscriptionEvent.dataEv l) s).1
        (handleUnsubscribe eventName address id
          (SubListeners.on ls SubscriptionEvent.dataEv l) s).2.1).1.dataL =
      (SubListeners.on ls SubscriptionEvent.dataEv l).dataL ∧
    SubListeners.notify
        (handleSubscribe eventName address id ok
          (handleUnsubscribe eventName address id
            (SubListeners.on ls SubscriptionEvent.dataEv l) s).1
          (handleUnsubscribe eventName address id
            (SubListeners.on ls SubscriptionEvent.dataEv l) s).2.1).1 =
      ls.dataL ++ [l] ∧
    l ∈ SubListeners.notify
        (handleSubscribe eventName address id ok
          (handleUnsubscribe eventName address id
            (SubListeners.on ls SubscriptionEvent.dataEv l) s).1
          (handleUnsubscribe eventName address id
            (SubListeners.on ls SubscriptionEvent.dataEv l) s).2.1).1 := by
  refine ⟨rfl, rfl, ?_⟩
  show l ∈ ls.dataL ++ [l]
  simp

/-- One sequential consumer operation on a fixed address: an add of
interest through a handle's subscribe, or a removal through a handle's
unsubscribe.  The event name determines the interest flags of an add. -/
inductive COp where
  | addOp (eventName : String) (id : Nat)
  | removeOp (eventName : String) (id : Nat)
deriving Repr, DecidableEq

/-- Effect of one operation: successor state and issued upstream calls;
adds run with the transport accepting the call. -/
def stepOp (address : String) (op : COp) (s : ClientState) : ClientState × List UpstreamCall :=
  match op with
  | COp.addOp e id =>
    ((contractSubscribeAction e address id true s).1,
      (contractSubscribeAction e address id true s).2.1)
  | COp.removeOp e id => contractUnsubscribeAction e address id s

/-- Aggregate interest currently registered for an address: the OR of all
interest flags in its bucket. -/
def addrOr (address : String) (s : ClientState) : ContractUpdatesSubscription :=
  totalOr (bucketOf s address)

/-- Specified upstream calls of one operation as a function of the
aggregate before and after it: no call when the aggregate is unchanged,
one unsubscribe when it collapses to no interest, and one subscribe
carrying the new aggregate otherwise. -/
def specCalls (address : String) (before after : ContractUpdatesSubscription) :
    List UpstreamCall :=
  if after = before then []
  else if after = ⟨false, false⟩ then [UpstreamCall.unsubscribeCall address]
  else [UpstreamCall.subscribeCall address after]

/-- Well-formedness of one operation in a state: an add either targets an
id already holding a callback, or a genuinely fresh id under a contract
topic name; a remove targets an id currently present in the address's
bucket. -/
def wfOpB (address : String) (s : ClientState) : COp → Bool
  | COp.addOp e id =>
    hasId (topicIdsOf s e) id ||
      (!(hasKey (bucketOf s address) id) && isContractEvent e)
  | COp.removeOp _ id => hasKey (bucketOf s address) id

/-- State invariant: every interest entry registered for the address wants
at least one of the two event kinds, as every entry inserted by the
subscribe method does. -/
def goodBucketB (address : String) (s : ClientState) : Bool :=
  (bucketOf s address).all (fun p => p.2.state || p.2.transactions)

/-- Well-formed operation sequences from a given state. -/
inductive WfTrace (address : String) : ClientState → List COp → Prop
  | nil (s : ClientState) : WfTrace address s []
  | cons (s : ClientState) (op : COp) (ops : List COp) :
      wfOpB address s op = true →
      WfTrace address (stepOp address op s).1 ops →
      WfTrace address s (op :: ops)

/-- Upstream call history of an operation sequence, one call list per
operation. -/
def opsCalls (address : String) : List COp → ClientState → List (List UpstreamCall)
  | [], _ => []
  | op :: ops, s => (stepOp address op s).2 :: opsCalls address ops (stepOp address op s).1

/-- Specified call history of an operation sequence, derived solely from
the running aggregate interest. -/
def opsSpecCalls (address : String) : List COp → ClientState → List (List UpstreamCall)
  | [], _ => []
  | op :: ops, s =>
    specCalls address (addrOr address s) (addrOr address (stepOp address op s).1) ::
      opsSpecCalls address ops (stepOp address op s).1

theorem mem_setKey (l : List (Nat × ContractUpdatesSubscription)) (id : Nat)
    (v : ContractUpdatesSubscription) (p : Nat × ContractUpdatesSubscription)
    (h : p ∈ setKey l id v) : p = (id, v) ∨ p ∈ l := by
  induction l with
  | nil =>
    simp only [setKey] at h
    exact Or.inl (List.mem_singleton.mp h)
  | cons q rest ih =>
    simp only [setKey] at h
    by_cases h1 : id = q.1
    · rw [if_pos h1] at h
      rcases List.mem_cons.mp h with h | h
      · exact Or.inl h
      · exact Or.inr (List.mem_cons_of_mem _ h)
    · rw [if_neg h1] at h
      by_cases h2 : id < q.1
      · rw [if_pos h2] at h
        rcases List.mem_cons.mp h with h | h
        · exact Or.inl h
        · exact Or.inr h
      · rw [if_neg h2] at h
        rcases List.mem_cons.mp h with h | h
        · exact Or.inr (h ▸ List.mem_cons_self q rest)
        · rcases ih h with h | h
          · exact Or.inl h
          · exact Or.inr (List.mem_cons_of_mem _ h)

theorem totalOr_bits_of_mem (l : List (Nat × ContractUpdatesSubscription))
    (p : Nat × ContractUpdatesSubscription) (h : p ∈ l) :
    (p.2.state = true → (totalOr l).state = true) ∧
    (p.2.transactions = true → (totalOr l).transactions = true) := by
  induction l with
  | nil => simp at h
  | cons q rest ih =>
    rcases List.mem_cons.mp h with rfl | h
    · constructor <;> intro hb <;> simp [totalOr, orFlags, hb]
    · obtain ⟨i1, i2⟩ := ih h
      constructor <;> intro hb
      · simp [totalOr, orFlags, i1 hb]
      · simp [totalOr, orFlags, i2 hb]

theorem hasKey_exists_mem (l : List (Nat × ContractUpdatesSubscription)) (id : Nat)
    (h : hasKey l id = true) : ∃ f, (id, f) ∈ l := by
  induction l with
  | nil => simp [hasKey] at h
  | cons q rest ih =>
    simp only [hasKey, List.any_cons, Bool.or_eq_true] at h
    rcases h with h | h
    · refine ⟨q.2, ?_⟩
      have hq : q.1 = id := by simpa using h
      have : (id, q.2) = q := by
        rw [← hq]
      rw [this]
      exact List.mem_cons_self q rest
    · obtain ⟨f, hf⟩ := ih (by simpa [hasKey] using h)
      exact ⟨f, List.mem_cons_of_mem _ hf⟩

theorem orFlags_bot (a b : ContractUpdatesSubscription)
    (h : orFlags a b = ⟨false, false⟩) :
    a = ⟨false, false⟩ ∧ b = ⟨false, false⟩ := by
  cases a
  cases b
  simp only [orFlags, ContractUpdatesSubscription.mk.injEq, Bool.or_eq_false_iff] at h
  obtain ⟨⟨h1, h2⟩, h3, h4⟩ := h
  constructor
  · rw [h1, h3]
  · rw [h2, h4]

theorem contractSubscribeAction_fresh (e address : String) (id : Nat) (s : ClientState)
    (hhas : hasId (topicIdsOf s e) id = false)
    (hkey : hasKey (bucketOf s address) id = false) :
    contractSubscribeAction e address id true s =
      ({ subscriptions := setStr s.subscriptions e (insertId (topicIdsOf s e) id),
         contractSubscriptions := setStr s.contractSubscriptions address
           (setKey (bucketOf s address) id (flagsFor e)) },
       if orFlags (flagsFor e) (totalOr (bucketOf s address)) = totalOr (bucketOf s address)
       then []
       else [UpstreamCall.subscribeCall address
         (orFlags (flagsFor e) (totalOr (bucketOf s address)))],
       none) := by
  rw [contractSubscribeAction, if_neg (by rw [hhas]; exact Bool.false_ne_true)]
  have hb1 : bucketOf
      ({ s with subscriptions :=
                  setStr s.subscriptions e (insertId (topicIdsOf s e) id) } :
        ClientState) address =
      bucketOf s address := rfl
  simp only [hb1]
  have hfold := foldSubscriptions_eq (setKey (bucketOf s address) id (flagsFor e)) id
  rw [totalOr_setKey _ _ _ hkey, withoutEntry_setKey _ _ _ hkey] at hfold
  rw [hfold]
  by_cases hAB : orFlags (flagsFor e) (totalOr (bucketOf s address)) =
      totalOr (bucketOf s address)
  · have hcond : ((orFlags (flagsFor e) (totalOr (bucketOf s address)),
        totalOr (bucketOf s address)).1.transactions !=
          (orFlags (flagsFor e) (totalOr (bucketOf s address)),
        totalOr (bucketOf s address)).2.transactions ||
        (orFlags (flagsFor e) (totalOr (bucketOf s address)),
        totalOr (bucketOf s address)).1.state !=
          (orFlags (flagsFor e) (totalOr (bucketOf s address)),
        totalOr (bucketOf s address)).2.state) = false := by
      rw [← Bool.not_eq_true]
      intro hc
      exact absurd hAB ((flag_ne_iff _ _).mp hc)
    rw [if_neg (by rw [hcond]; exact Bool.false_ne_true), if_pos hAB]
  · have hcond : ((orFlags (flagsFor e) (totalOr (bucketOf s address)),
        totalOr (bucketOf s address)).1.transactions !=
          (orFlags (flagsFor e) (totalOr (bucketOf s address)),
        totalOr (bucketOf s address)).2.transactions ||
        (orFlags (flagsFor e) (totalOr (bucketOf s address)),
        totalOr (bucketOf s address)).1.state !=
          (orFlags (flagsFor e) (totalOr (bucketOf s address)),
        totalOr (bucketOf s address)).2.state) = true := (flag_ne_iff _ _).mpr hAB
    rw [if_pos hcond, if_pos trivial, if_neg hAB]

theorem contractUnsubscribeAction_found (e address : String) (id : Nat) (s : ClientState)
    (bucket : List (Nat × ContractUpdatesSubscription))
    (hl : lookupStr s.contractSubscriptions address = some bucket) :
    contractUnsubscribeAction e address id s =
      ({ subscriptions := setStr s.subscriptions e (removeId (topicIdsOf s e) id),
         contractSubscriptions :=
           setStr s.contractSubscriptions address (withoutEntry bucket id) },
       if totalOr (withoutEntry bucket id) = ⟨false, false⟩
       then [UpstreamCall.unsubscribeCall address]
       else if totalOr bucket = totalOr (withoutEntry bucket id) then []
       else [UpstreamCall.subscribeCall address (totalOr (withoutEntry bucket id))]) := by
  have hl1 : lookupStr
      (ClientState.contractSubscriptions
        { s with subscriptions := setStr s.subscriptions e (removeId (topicIdsOf s e) id) })
      address = some bucket := hl
  rw [contractUnsubscribeAction]
  simp only [hl1]
  rw [foldSubscriptions_eq]
  by_cases hbot : totalOr (withoutEntry bucket id) = ⟨false, false⟩
  · have hc1 : ((!(totalOr bucket, totalOr (withoutEntry bucket id)).2.transactions &&
        !(totalOr bucket, totalOr (withoutEntry bucket id)).2.state) = true) :=
      (flag_bot_iff _).mpr hbot
    rw [if_pos hc1, if_pos hbot]
  · have hc1 : ((!(totalOr bucket, totalOr (withoutEntry bucket id)).2.transactions &&
        !(totalOr bucket, totalOr (withoutEntry bucket id)).2.state) = false) := by
      rw [← Bool.not_eq_true]
      intro hc
      exact absurd ((flag_bot_iff _).mp hc) hbot
    rw [if_neg (by rw [hc1]; exact Bool.false_ne_true), if_neg hbot]
    by_cases heq : totalOr bucket = totalOr (withoutEntry bucket id)
    · have hc2 : (((totalOr bucket, totalOr (withoutEntry bucket id)).1.transactions !=
          (totalOr bucket, totalOr (withoutEntry bucket id)).2.transactions ||
          (totalOr bucket, totalOr (withoutEntry bucket id)).1.state !=
          (totalOr bucket, totalOr (withoutEntry bucket id)).2.state) = false) := by
        rw [← Bool.not_eq_true]
        intro hc
        exact absurd heq ((flag_ne_iff _ _).mp hc)
      rw [if_neg (by rw [hc2]; exact Bool.false_ne_true), if_pos heq]
    · have hc2 : (((totalOr bucket, totalOr (withoutEntry bucket id)).1.transactions !=
          (totalOr bucket, totalOr (withoutEntry bucket id)).2.transactions ||
          (totalOr bucket, totalOr (withoutEntry bucket id)).1.state !=
          (totalOr bucket, totalOr (withoutEntry bucket id)).2.state) = true) :=
        (flag_ne_iff _ _).mpr heq
      rw [if_pos hc2, if_neg heq]

theorem flagsFor_good (e : String) (h : isContractEvent e = true) :
    ((flagsFor e).state || (flagsFor e).transactions) = true := by
  simp only [isContractEvent, Bool.or_eq_true] at h
  rcases h with h | h
  · have he : e = "transactionsFound" := by simpa using h
    subst he
    decide
  · have he : e = "contractStateChanged" := by simpa using h
    subst he
    decide

theorem stepOp_calls_spec (address : String) (op : COp) (s : ClientState)
    (hg : goodBucketB address s = true) (hwf : wfOpB address s op = true) :
    (stepOp address op s).2 =
      specCalls address (addrOr address s) (addrOr address (stepOp address op s).1) ∧
    goodBucketB address (stepOp address op s).1 = true := by
  cases op with
  | addOp e id =>
    by_cases hhas : hasId (topicIdsOf s e) id = true
    · have hact : contractSubscribeAction e address id true s = (s, [], none) := by
        rw [contractSubscribeAction, if_pos hhas]
      constructor
      · simp only [stepOp, hact, specCalls]
        rw [if_pos trivial]
      · simp only [stepOp, hact]
        exact hg
    · have hhasf : hasId (topicIdsOf s e) id = false := Bool.eq_false_iff.mpr hhas
      have hrest : (!(hasKey (bucketOf s address) id) && isContractEvent e) = true := by
        have hw := hwf
        simp only [wfOpB, hhasf, Bool.false_or] at hw
        exact hw
      have hkey : hasKey (bucketOf s address) id = false := by
        rcases (Bool.and_eq_true _ _).mp hrest with ⟨h1, _⟩
        simpa using h1
      have hev : isContractEvent e = true := ((Bool.and_eq_true _ _).mp hrest).2
      have hact := contractSubscribeAction_fresh e address id s hhasf hkey
      have haft : addrOr address (stepOp address (COp.addOp e id) s).1 =
          orFlags (flagsFor e) (totalOr (bucketOf s address)) := by
        simp only [stepOp, hact, addrOr, bucketOf]
        rw [lookupStr_setStr_self]
        simp only [Option.getD_some]
        exact totalOr_setKey _ _ _ hkey
      constructor
      · rw [haft, show addrOr address s = totalOr (bucketOf s address) from rfl]
        simp only [stepOp, hact, specCalls]
        by_cases hAB : orFlags (flagsFor e) (totalOr (bucketOf s address)) =
            totalOr (bucketOf s address)
        · rw [if_pos hAB, if_pos hAB]
        · have hAbot : orFlags (flagsFor e) (totalOr (bucketOf s address)) ≠
              (⟨false, false⟩ : ContractUpdatesSubscription) := by
            intro hA
            obtain ⟨h1, h2⟩ := orFlags_bot _ _ hA
            exact hAB (hA.trans h2.symm)
          rw [if_neg hAB, if_neg hAB, if_neg hAbot]
      · simp only [stepOp, hact, goodBucketB, bucketOf]
        rw [lookupStr_setStr_self]
        simp only [Option.getD_some]
        rw [List.all_eq_true]
        intro p hp
        rcases mem_setKey _ _ _ _ hp with rfl | hp
        · exact flagsFor_good e hev
        · have hgall := hg
          simp only [goodBucketB] at hgall
          exact List.all_eq_true.mp hgall p hp
  | removeOp e id =>
    have hwk : hasKey (bucketOf s address) id = true := by
      simpa [wfOpB] using hwf
    cases hl : lookupStr s.contractSubscriptions address with
    | none =>
      exfalso
      have hb : bucketOf s address = [] := by simp [bucketOf, hl]
      rw [hb] at hwk
      simp [hasKey] at hwk
    | some bucket =>
      have hbeq : bucketOf s address = bucket := by simp [bucketOf, hl]
      have hact := contractUnsubscribeAction_found e address id s bucket hl
      have hgb : bucket.all (fun p => p.2.state || p.2.transactions) = true := by
        have hgall := hg
        simp only [goodBucketB, hbeq] at hgall
        exact hgall
      have hBne : totalOr bucket ≠ (⟨false, false⟩ : ContractUpdatesSubscription) := by
        obtain ⟨f, hf⟩ := hasKey_exists_mem bucket id (by rw [← hbeq]; exact hwk)
        have hgood : (f.state || f.transactions) = true := List.all_eq_true.mp hgb (id, f) hf
        rcases (Bool.or_eq_true _ _).mp hgood with hb | hb
        · intro hB
          have hbit := (totalOr_bits_of_mem bucket (id, f) hf).1 hb
          rw [hB] at hbit
          simp at hbit
        · intro hB
          have hbit := (totalOr_bits_of_mem bucket (id, f) hf).2 hb
          rw [hB] at hbit
          simp at hbit
      have haft : addrOr address (stepOp address (COp.removeOp e id) s).1 =
          totalOr (withoutEntry bucket id) := by
        simp only [stepOp, hact, addrOr, bucketOf]
        rw [lookupStr_setStr_self]
        rfl
      constructor
      · rw [haft, show addrOr address s = totalOr (bucketOf s address) from rfl, hbeq]
        simp only [stepOp, hact, specCalls]
        by_cases hA : totalOr (withoutEntry bucket id) =
            (⟨false, false⟩ : ContractUpdatesSubscription)
        · have hne : totalOr (withoutEntry bucket id) ≠ totalOr bucket := by
            intro h
            exact hBne (h.symm.trans hA)
          rw [if_pos hA, if_neg hne, if_pos hA]
        · rw [if_neg hA]
          by_cases hE : totalOr (withoutEntry bucket id) = totalOr bucket
          · rw [if_pos hE.symm, if_pos hE]
          · rw [if_neg (fun h => hE h.symm), if_neg hE, if_neg hA]
      · simp only [stepOp, hact, goodBucketB, bucketOf]
        rw [lookupStr_setStr_self]
        simp only [Option.getD_some]
        rw [List.all_eq_true]
        intro p hp
        exact List.all_eq_true.mp hgb p (List.mem_of_mem_filter hp)

/-- Claim C1 (amended): along any sequential well-formed add/remove
sequence on one address, where each remove targets an id currently
registered in the address's bucket and each add uses a fresh id or
re-targets an id already holding a callback, each operation issues exactly
the upstream calls determined by the aggregate interest: none when the OR
of registered flags is unchanged, one unsubscribe when it collapses to no
interest, one subscribe carrying the new OR otherwise. -/
theorem upstream_calls_reflect_aggregate (address : String) (ops : List COp)
    (s : ClientState) (hg : goodBucketB address s = true)
    (ht : WfTrace address s ops) :
    opsCalls address ops s = opsSpecCalls address ops s := by
  induction ops generalizing s with
  | nil => rfl
  | cons op ops1 ih =>
    cases ht with
    | cons _ _ _ hwf htail =>
      obtain ⟨hcalls, hg1⟩ := stepOp_calls_spec address op s hg hwf
      simp only [opsCalls, opsSpecCalls]
      rw [hcalls, ih (stepOp address op s).1 hg1 htail]

/-- Claim C1 witness: a concrete interleaved sequence of two subscribers,
added and removed in turn, on one address. -/
theorem upstream_calls_reflect_aggregate_witness :
    goodBucketB "a" ClientState.init = true ∧
    opsCalls "a"
        [COp.addOp "transactionsFound" 1, COp.addOp "contractStateChanged" 2,
          COp.removeOp "transactionsFound" 1, COp.removeOp "contractStateChanged" 2]
        ClientState.init =
      opsSpecCalls "a"
        [COp.addOp "transactionsFound" 1, COp.addOp "contractStateChanged" 2,
          COp.removeOp "transactionsFound" 1, COp.removeOp "contractStateChanged" 2]
        ClientState.init :=
  ⟨by decide,
    upstream_calls_reflect_aggregate "a" _ ClientState.init (by decide)
      (WfTrace.cons _ _ _ (by decide)
        (WfTrace.cons _ _ _ (by decide)
          (WfTrace.cons _ _ _ (by decide)
            (WfTrace.cons _ _ _ (by decide) (WfTrace.nil _)))))⟩

/-- Claim C1 counterexample to the original wording: over arbitrary
sequential add/remove sequences the correspondence fails, because the
empty bucket left behind by the last removal makes a second removal issue
a second upstream unsubscribe although the aggregate interest did not
change. -/
theorem double_remove_issues_spurious_unsubscribe :
    opsCalls "a"
        [COp.addOp "transactionsFound" 1, COp.removeOp "transactionsFound" 1,
          COp.removeOp "transactionsFound" 1] ClientState.init ≠
      opsSpecCalls "a"
        [COp.addOp "transactionsFound" 1, COp.removeOp "transactionsFound" 1,
          COp.removeOp "transactionsFound" 1] ClientState.init := by
  decide
